import Mathlib

/-!
Shallow embedding of the chunked-file split / verify / reassemble subsystem
of the `Test_client` repository (`mod_split.py`, `mod_unsplit.py`,
`mod_validate.py`, `util.py`).

Modelling conventions:
* a file's content is a `List Nat` of its bytes;
* the local filesystem is an association list from path to content, where a
  write prepends (so a later write to the same path shadows an earlier one,
  matching `open(path, 'wb')` truncation) and a delete removes every entry
  for the path (matching `os.remove`);
* the MD5 hex digest produced by `calculate_file_hash` is modelled by a fixed
  computable function `hashBytes : List Nat → Nat`; every claim depends only
  on equality/inequality of digests, never on MD5 internals;
* `print` logging is modelled, where a claim refers to it, as an explicit
  list of reported items; other prints are dropped;
* I/O failures (unreadable file, failed write) are modelled by explicit
  failure flags or by dedicated `...failingAt` variants that mirror the
  `except` branches of the source.
-/

namespace TestClient

/-- Models the MD5 digest of `calculate_file_hash` (util.py lines 7-27,
mod_split.py lines 18-34): a deterministic function of the file content.
The constants are arbitrary; claims use only digest (in)equality. -/
def hashBytes (l : List Nat) : Nat :=
  l.foldl (fun a b => (a * 257 + b + 1) % 1000000007) 5381

/-- The local filesystem: path ↦ content, newest entry first. -/
abbrev Disk := List (String × List Nat)

/-- Models `os.path.exists` / reading a file: first (newest) entry for the path. -/
def Disk.lookup : Disk → String → Option (List Nat)
  | [], _ => none
  | (q, data) :: rest, p => if q = p then some data else Disk.lookup rest p

/-- Models `open(path, 'wb')` followed by writing `data`: shadows any older entry. -/
def Disk.write (d : Disk) (p : String) (data : List Nat) : Disk :=
  (p, data) :: d

/-- Models `os.remove(path)`: the path is gone afterwards. -/
def Disk.removeFile (d : Disk) (p : String) : Disk :=
  d.filter (fun e => e.1 ≠ p)

/-- Models `os.path.join(dir, name)`. -/
def pathJoin (dir name : String) : String := dir ++ "/" ++ name

/-- Characters up to (excluding) the first `'/'`. -/
def takeUntilSlash : List Char → List Char
  | [] => []
  | c :: rest => if c = '/' then [] else c :: takeUntilSlash rest

/-- Models `os.path.basename`: the part after the last `'/'` (the whole string when
it has no slash). -/
def basename (p : String) : String := ⟨(takeUntilSlash p.data.reverse).reverse⟩

/-- Models `os.path.dirname`: the part before the last `'/'` (empty when the string
has no slash). -/
def dirname (p : String) : String :=
  ⟨(p.data.reverse.drop ((takeUntilSlash p.data.reverse).length + 1)).reverse⟩

/-- Python's `str.endswith`. -/
def strEndsWith (s suffix : String) : Bool :=
  s.data.drop (s.data.length - suffix.data.length) == suffix.data

/-- Python's `str.lower` on one character (ASCII, which is all the source's
file names use). -/
def charToLower (c : Char) : Char :=
  if 'A' ≤ c ∧ c ≤ 'Z' then Char.ofNat (c.toNat + 32) else c

/-- Python's `str.lower`. -/
def strToLower (s : String) : String := ⟨s.data.map charToLower⟩

/-- Decimal digit to character, as in Python's decimal formatting. -/
def digitChar : Nat → Char
  | 0 => '0' | 1 => '1' | 2 => '2' | 3 => '3' | 4 => '4'
  | 5 => '5' | 6 => '6' | 7 => '7' | 8 => '8' | 9 => '9'
  | _ => '?'

/-- Fuel-driven most-significant-first decimal character list of `n`
(structural recursion so that concrete instances evaluate by `decide`);
only reached with `1 ≤ n ≤ fuel`. -/
def natCharsCore : Nat → Nat → List Char
  | 0, _ => []
  | fuel + 1, n =>
    if n < 10 then [digitChar n]
    else natCharsCore fuel (n / 10) ++ [digitChar (n % 10)]

/-- Most-significant-first decimal character list of `n` (empty for 0). -/
def natChars (n : Nat) : List Char := natCharsCore n n

/-- Python's `f"{n:02d}"`: decimal representation left-padded with zeros to
at least two characters (numbers of three or more digits are unaffected). -/
def formatTwoDigit (n : Nat) : String :=
  if n = 0 then "00"
  else if n < 10 then ⟨'0' :: natChars n⟩
  else ⟨natChars n⟩

/-- One entry of `chunk_info_list` (mod_split.py lines 75-82); the `_mb`
display field is omitted (derived, display only). -/
structure ChunkInfo where
  chunk_name : String
  chunk_path : String
  chunk_size_bytes : Nat
  chunk_hash : Nat
  chunk_index : Nat
deriving DecidableEq

/-- The dictionary returned by `split_large_file` (mod_split.py lines 87-94);
`_mb` display fields omitted, `chunk_size_setting_mb` omitted (constant). -/
structure SplitInfo where
  original_file_size_bytes : Nat
  original_file_hash : Nat
  chunk_count : Nat
  chunks : List ChunkInfo
deriving DecidableEq

/-- One entry of `all_mod_files` in the manifest (mod_split.py lines 134-141),
also the `file_info` consumed by `restore_split_file` and
`validate_mods_with_config`. `file_hash` is an `Option` because
`calculate_file_hash` returns `None` on failure. -/
structure FileInfo where
  file_path : String
  file_name : String
  file_size_bytes : Nat
  file_hash : Option Nat
  is_split : Bool
  split_details : Option SplitInfo
deriving DecidableEq

/-- Models `math.ceil(n / c)` for natural `n`, `c` with `0 < c`. -/
def ceilDiv (n c : Nat) : Nat := (n + c - 1) / c

/-- Fragment file name `f"{file_name}.part{idx:02d}"` (mod_split.py line 62). -/
def partName (fileName : String) (idx : Nat) : String :=
  fileName ++ ".part" ++ formatTwoDigit idx

/-- Fragment path `os.path.join(output_dir, chunk_file_name)` (line 63). -/
def partPath (dir fileName : String) (idx : Nat) : String :=
  pathJoin dir (partName fileName idx)

/-- The `for chunk_idx in range(chunk_count)` loop of `split_large_file`
(mod_split.py lines 60-85): each pass reads the next `chunkSize` bytes,
writes them to the fragment path, then records the fragment's on-disk size
and hash (both of the just-written file, hence of the data just written).
`startIdx` is the number of chunks already emitted (0 at the top call). -/
def splitLoop (dir fileName : String) (chunkSize : Nat) :
    List Nat → Nat → Nat → Disk → List ChunkInfo × Disk
  | _, _, 0, disk => ([], disk)
  | content, startIdx, count + 1, disk =>
    let data := content.take chunkSize
    let p := partPath dir fileName (startIdx + 1)
    let disk1 := disk.write p data
    let info : ChunkInfo :=
      { chunk_name := partName fileName (startIdx + 1)
        chunk_path := p
        chunk_size_bytes := data.length
        chunk_hash := hashBytes data
        chunk_index := startIdx + 1 }
    let rest := splitLoop dir fileName chunkSize (content.drop chunkSize)
      (startIdx + 1) count disk1
    (info :: rest.1, rest.2)

/-- Embeds `split_large_file` (mod_split.py lines 37-101), success path. The source
fixes `CHUNK_SIZE = 30 * 1024 * 1024`; the embedding takes the constant as
the parameter `chunkSize`. `content` is the source file's bytes (so its
`os.path.getsize` is `content.length`). Returns the split-info dictionary and
the filesystem after the fragment writes. -/
def split_large_file (chunkSize : Nat) (dir fileName : String)
    (content : List Nat) (disk : Disk) : SplitInfo × Disk :=
  let count := ceilDiv content.length chunkSize
  let r := splitLoop dir fileName chunkSize content 0 count disk
  ({ original_file_size_bytes := content.length
     original_file_hash := hashBytes content
     chunk_count := count
     chunks := r.1 }, r.2)

/-- The `except` path of `split_large_file` (mod_split.py lines 95-101) when
an exception is raised inside the write of fragment number `failIdx + 1`
(0-based `failIdx`): fragments `1 .. failIdx` were completed and recorded in
`chunk_info_list`; the failing fragment's file was created by `open(..., 'wb')`
and holds the bytes written before the error (`interruptedData`); the cleanup
loop then removes each path recorded in `chunk_info_list` if it exists.
Returns the filesystem after cleanup (the function itself returns `None`). -/
def split_large_file_failingAt (chunkSize : Nat) (dir fileName : String)
    (content : List Nat) (failIdx : Nat) (interruptedData : List Nat)
    (disk : Disk) : Disk :=
  let r := splitLoop dir fileName chunkSize content 0 failIdx disk
  let diskF := r.2.write (partPath dir fileName (failIdx + 1)) interruptedData
  r.1.foldl
    (fun d info =>
      if (d.lookup info.chunk_path).isSome then d.removeFile info.chunk_path
      else d)
    diskF

/-- Insertion step of a stable sort on `chunk_index` (ties keep first-seen
order), the behaviour of Python's stable
`sorted(chunk_info_list, key=lambda x: x["chunk_index"])`. -/
def insertByIndex (c : ChunkInfo) : List ChunkInfo → List ChunkInfo
  | [] => [c]
  | d :: ds =>
    if c.chunk_index ≤ d.chunk_index then c :: d :: ds
    else d :: insertByIndex c ds

/-- Stable sort by `chunk_index`, modelling
`sorted(chunk_info_list, key=lambda x: x["chunk_index"])`
(mod_unsplit.py lines 19 and 89). -/
def sortByIndex : List ChunkInfo → List ChunkInfo
  | [] => []
  | c :: cs => insertByIndex c (sortByIndex cs)

/-- The three per-chunk checks of `validate_chunks` (mod_unsplit.py lines
27-48) as one boolean: fragment exists, on-disk size equals the recorded
`chunk_size_bytes` exactly, recomputed hash equals the recorded `chunk_hash`. -/
def chunkOk (disk : Disk) (c : ChunkInfo) : Bool :=
  match disk.lookup c.chunk_path with
  | none => false
  | some data => data.length == c.chunk_size_bytes && hashBytes data == c.chunk_hash

/-- The `for chunk in sorted_chunks` loop of `validate_chunks`: per chunk the
checks short-circuit (`continue` after the first failing check); across
chunks the loop always runs to the end, collecting a failure report (modelled
by the chunk's path, as printed) for every failing chunk. Returns
(`all_valid`, reported failures). -/
def validateLoop (disk : Disk) : List ChunkInfo → Bool × List String
  | [] => (true, [])
  | c :: rest =>
    let r := validateLoop disk rest
    match disk.lookup c.chunk_path with
    | none => (false, c.chunk_path :: r.2)
    | some data =>
      if data.length ≠ c.chunk_size_bytes then (false, c.chunk_path :: r.2)
      else if hashBytes data ≠ c.chunk_hash then (false, c.chunk_path :: r.2)
      else r

/-- Embeds `validate_chunks` (mod_unsplit.py lines 10-58). -/
def validate_chunks (disk : Disk) (chunkInfoList : List ChunkInfo) :
    Bool × List String :=
  validateLoop disk (sortByIndex chunkInfoList)

/-- Embeds `restore_split_file` (mod_unsplit.py lines 61-140). Returns the `True`/
`False` result together with the filesystem after the call. The `none`
branch for `split_details` mirrors the fact that the source would raise
`KeyError` before any write (the function is only ever called on records
with `is_split` true, which carry `split_details`). Reading a fragment uses
`getD []`; the `none` case is unreachable because `validate_chunks` has
already confirmed every fragment exists. -/
def restore_split_file (fi : FileInfo) (outputDir : String) (disk : Disk) :
    Bool × Disk :=
  let restoredPath := pathJoin outputDir (basename fi.file_path)
  if (disk.lookup restoredPath).isSome then (false, disk)
  else
    match fi.split_details with
    | none => (false, disk)
    | some sd =>
      if (validate_chunks disk sd.chunks).1 = false then (false, disk)
      else
        let sortedChunks := sortByIndex sd.chunks
        let written :=
          (sortedChunks.map (fun c => (disk.lookup c.chunk_path).getD [])).flatten
        let disk1 := disk.write restoredPath written
        if written.length ≠ fi.file_size_bytes then
          (false, disk1.removeFile restoredPath)
        else if fi.file_hash ≠ some (hashBytes written) then
          (false, disk1.removeFile restoredPath)
        else (true, disk1)

/-- The `except` path of `restore_split_file` (mod_unsplit.py lines 135-140)
when an I/O error interrupts the concatenation after `interruptedData` bytes
reached the destination: the handler removes the destination file if it
exists and returns `False`. The steps before the `try` block (already-exists
check, chunk validation) behave as in `restore_split_file`. -/
def restore_split_file_failingWrite (fi : FileInfo) (outputDir : String)
    (interruptedData : List Nat) (disk : Disk) : Bool × Disk :=
  let restoredPath := pathJoin outputDir (basename fi.file_path)
  if (disk.lookup restoredPath).isSome then (false, disk)
  else
    match fi.split_details with
    | none => (false, disk)
    | some sd =>
      if (validate_chunks disk sd.chunks).1 = false then (false, disk)
      else
        let disk1 := disk.write restoredPath interruptedData
        (false,
          if (disk1.lookup restoredPath).isSome then
            disk1.removeFile restoredPath
          else disk1)

/-! ### Manifest building (`main` of mod_split.py, lines 104-169) -/

/-- One file met by `os.walk` in `main`, together with the I/O outcomes the
environment chooses for it: `hashFails` models `calculate_file_hash`
returning `None`, `splitFails` models `split_large_file` returning `None`
after an exception. -/
structure WalkedFile where
  name : String
  path : String
  content : List Nat
  hashFails : Bool
  splitFails : Bool
deriving DecidableEq

/-- The tracked-extension filter `file.lower().endswith('.jar')`
(mod_split.py line 127). -/
def isJarFile (w : WalkedFile) : Bool :=
  strEndsWith (strToLower w.name) ".jar"

/-- The body of the walk loop in `main` (mod_split.py lines 129-156) for one
tracked file: build the base record; if the size exceeds the threshold,
attempt the split and attach `split_details` only when it succeeded; the
record is appended in every case. The source fixes
`SPLIT_THRESHOLD = 50 * 1024 * 1024`; the embedding takes it as `threshold`. -/
def buildRecord (threshold chunkSize : Nat) (w : WalkedFile) : FileInfo :=
  let fhash : Option Nat := if w.hashFails then none else some (hashBytes w.content)
  let base : FileInfo :=
    { file_path := w.path
      file_name := w.name
      file_size_bytes := w.content.length
      file_hash := fhash
      is_split := false
      split_details := none }
  if w.content.length > threshold then
    if w.splitFails then base
    else
      { base with
          is_split := true
          split_details :=
            some (split_large_file chunkSize (dirname w.path) w.name
              w.content []).1 }
  else base

/-- The `all_mod_files` list produced by `main` (mod_split.py lines 124-156):
non-`.jar` files are skipped, every other walked file contributes exactly one
record, in walk order. -/
def buildManifest (threshold chunkSize : Nat) (files : List WalkedFile) :
    List FileInfo :=
  (files.filter isJarFile).map (buildRecord threshold chunkSize)

/-! ### Drift detection (`validate_mods_with_config`, mod_validate.py) -/

/-- One element of `all_local_files` built by `get_local_mod_file_map`
(mod_validate.py lines 59-86): the walk computes hash and size up front;
either is `none` when the corresponding helper failed. The `size_mb` display
field is omitted. -/
structure LocalFile where
  file_name : String
  file_path : String
  hash : Option Nat
  size_bytes : Option Nat
deriving DecidableEq

/-- Insertion into a Python-dict-of-lists: append to the existing key's list,
else add a fresh singleton entry (insertion order of keys preserved). -/
def addToKey {κ : Type} [DecidableEq κ] :
    List (κ × List LocalFile) → κ → LocalFile → List (κ × List LocalFile)
  | [], h, f => [(h, [f])]
  | (k, fs) :: rest, h, f =>
    if k = h then (k, fs ++ [f]) :: rest
    else (k, fs) :: addToKey rest h f

/-- Dict lookup (`key in dict` / `dict[key]`). -/
def lookupKey {κ : Type} [DecidableEq κ] :
    List (κ × List LocalFile) → κ → Option (List LocalFile)
  | [], _ => none
  | (k, fs) :: rest, q => if k = q then some fs else lookupKey rest q

/-- Embeds `get_local_mod_file_map` (mod_validate.py lines 44-86) restricted to the
two maps: `hash_to_files` (only files whose hash was computed) and
`name_to_files` (every file). The walked files themselves (with their
computed hash/size) are the input `locals`, which plays `all_local_files`. -/
def buildLocalMaps (locals : List LocalFile) :
    List (Nat × List LocalFile) × List (String × List LocalFile) :=
  locals.foldl
    (fun maps f =>
      let hm := match f.hash with
        | some h => addToKey maps.1 h f
        | none => maps.1
      (hm, addToKey maps.2 f.file_name f))
    ([], [])

/-- The four buckets of `inconsistent_mods` (mod_validate.py lines 137-142);
each classification appends the manifest record being checked (the source
appends a dictionary derived from that record). -/
structure Inconsistencies where
  missing_files : List FileInfo
  size_mismatch : List FileInfo
  hash_mismatch : List FileInfo
  error_files : List FileInfo
deriving DecidableEq

/-- One iteration of the per-record loop of `validate_mods_with_config`
(mod_validate.py lines 145-228). `none` models the `TypeError` the source
raises at line 154 (`mod_expected_hash[:8]`) when the record's hash is
`None`, which aborts the whole call. Steps, in source order: hash match →
`continue`; no name match → `missing_files`; else take the first same-name
local file; unobtainable size → `error_files`; size mismatch → append to
`size_mismatch` and fall through (no `continue`); unobtainable hash →
`error_files`; hash mismatch → `hash_mismatch`. -/
def classifyStep (hm : List (Nat × List LocalFile))
    (nm : List (String × List LocalFile)) (acc : Inconsistencies)
    (mod : FileInfo) : Option Inconsistencies :=
  match mod.file_hash with
  | none => none
  | some h =>
    if (lookupKey hm h).isSome then some acc
    else
      match lookupKey nm mod.file_name with
      | none => some { acc with missing_files := acc.missing_files ++ [mod] }
      | some locs =>
        match locs.head? with
        | none => some acc
        | some lf =>
          match lf.size_bytes with
          | none => some { acc with error_files := acc.error_files ++ [mod] }
          | some lsize =>
            let acc1 :=
              if lsize ≠ mod.file_size_bytes then
                { acc with size_mismatch := acc.size_mismatch ++ [mod] }
              else acc
            match lf.hash with
            | none => some { acc1 with error_files := acc1.error_files ++ [mod] }
            | some lh =>
              if lh ≠ h then
                some { acc1 with hash_mismatch := acc1.hash_mismatch ++ [mod] }
              else some acc1

/-- The `for idx, mod_info in enumerate(config_mod_list, 1)` loop. -/
def classifyAll (hm : List (Nat × List LocalFile))
    (nm : List (String × List LocalFile)) :
    Inconsistencies → List FileInfo → Option Inconsistencies
  | acc, [] => some acc
  | acc, m :: ms =>
    match classifyStep hm nm acc m with
    | none => none
    | some acc1 => classifyAll hm nm acc1 ms

/-- Membership of an optional local hash in `config_hash_set`
(`local_file_hash in config_hash_set`; Python's `None in set_of_strings`
is `False`). -/
def hashMem (oh : Option Nat) (hashSet : List Nat) : Bool :=
  match oh with
  | some h => hashSet.contains h
  | none => false

/-- The extra-file pass of `validate_mods_with_config` (mod_validate.py lines
230-252): skip when the hash or the name appears in the manifest; skip files
not ending in `.jar`; everything else is an extra file. -/
def extraLoop (hashSet : List Nat) (nameSet : List String)
    (locals : List LocalFile) : List LocalFile :=
  locals.filter (fun f =>
    !(hashMem f.hash hashSet || nameSet.contains f.file_name) &&
      strEndsWith f.file_name ".jar")

/-- Embeds `validate_mods_with_config` (mod_validate.py lines 89-252), starting from
the already-loaded manifest record list and the already-walked local files.
`config_hash_set` keeps only non-`None` hashes (`if mod_hash:`). `none`
models the uncaught `TypeError` on a record whose stored hash is `None`. -/
def validate_mods_with_config (config : List FileInfo)
    (locals : List LocalFile) : Option (Inconsistencies × List LocalFile) :=
  let maps := buildLocalMaps locals
  let hashSet := config.filterMap (·.file_hash)
  let nameSet := config.map (·.file_name)
  match classifyAll maps.1 maps.2 ⟨[], [], [], []⟩ config with
  | none => none
  | some inc => some (inc, extraLoop hashSet nameSet locals)

/-! ### Filesystem lemmas -/

theorem Disk.lookup_write_self (d : Disk) (p : String) (data : List Nat) :
    (d.write p data).lookup p = some data := by
  simp [Disk.write, Disk.lookup]

theorem Disk.lookup_write_ne (d : Disk) {p q : String} (h : q ≠ p)
    (data : List Nat) : (d.write q data).lookup p = d.lookup p := by
  simp [Disk.write, Disk.lookup, h]

theorem Disk.lookup_removeFile (d : Disk) (p q : String) :
    (d.removeFile p).lookup q = if q = p then none else d.lookup q := by
  induction d with
  | nil => simp [Disk.removeFile, Disk.lookup]
  | cons e rest ih =>
    obtain ⟨r, data⟩ := e
    by_cases hrq : r = q
    · subst hrq
      by_cases hrp : r = p
      · subst hrp
        simpa [Disk.removeFile, Disk.lookup] using ih
      · simp [Disk.removeFile, Disk.lookup, hrp]
    · by_cases hrp : r = p
      · subst hrp
        simpa [Disk.removeFile, Disk.lookup, hrq] using ih
      · simpa [Disk.removeFile, Disk.lookup, hrp, hrq] using ih

theorem Disk.lookup_removeFile_self (d : Disk) (p : String) :
    (d.removeFile p).lookup p = none := by
  simp [Disk.lookup_removeFile]

/-! ### Sorting lemmas -/

theorem mem_insertByIndex {x c : ChunkInfo} {l : List ChunkInfo} :
    x ∈ insertByIndex c l ↔ x = c ∨ x ∈ l := by
  induction l with
  | nil => simp [insertByIndex]
  | cons d ds ih =>
    by_cases h : c.chunk_index ≤ d.chunk_index
    · simp [insertByIndex, h]
    · simp only [insertByIndex, if_neg h, List.mem_cons, ih]
      tauto

theorem mem_sortByIndex {x : ChunkInfo} {l : List ChunkInfo} :
    x ∈ sortByIndex l ↔ x ∈ l := by
  induction l with
  | nil => simp [sortByIndex]
  | cons c cs ih => simp [sortByIndex, mem_insertByIndex, ih]

theorem insertByIndex_eq_cons {c : ChunkInfo} {l : List ChunkInfo}
    (h : ∀ x ∈ l, c.chunk_index ≤ x.chunk_index) : insertByIndex c l = c :: l := by
  cases l with
  | nil => rfl
  | cons d ds => simp [insertByIndex, h d (by simp)]

theorem sortByIndex_eq_self {l : List ChunkInfo}
    (h : l.Pairwise (fun a b => a.chunk_index ≤ b.chunk_index)) :
    sortByIndex l = l := by
  induction l with
  | nil => rfl
  | cons c cs ih =>
    rw [List.pairwise_cons] at h
    rw [sortByIndex, ih h.2, insertByIndex_eq_cons h.1]

/-! ### Chunk-verification lemmas -/

theorem validateLoop_fst (disk : Disk) (l : List ChunkInfo) :
    (validateLoop disk l).1 = l.all (chunkOk disk) := by
  induction l with
  | nil => rfl
  | cons c rest ih =>
    cases hl : disk.lookup c.chunk_path with
    | none => simp [validateLoop, hl, chunkOk]
    | some data =>
      by_cases hlen : data.length = c.chunk_size_bytes
      · by_cases hh : hashBytes data = c.chunk_hash
        · simp [validateLoop, hl, hlen, hh, chunkOk, ih]
        · simp [validateLoop, hl, hlen, hh, chunkOk]
      · simp [validateLoop, hl, hlen, chunkOk]

theorem validateLoop_snd (disk : Disk) (l : List ChunkInfo) :
    (validateLoop disk l).2 =
      (l.filter (fun c => !chunkOk disk c)).map (·.chunk_path) := by
  induction l with
  | nil => rfl
  | cons c rest ih =>
    cases hl : disk.lookup c.chunk_path with
    | none => simp [validateLoop, hl, chunkOk, ih]
    | some data =>
      by_cases hlen : data.length = c.chunk_size_bytes
      · by_cases hh : hashBytes data = c.chunk_hash
        · simp [validateLoop, hl, hlen, hh, chunkOk, ih]
        · simp [validateLoop, hl, hlen, hh, chunkOk, ih]
      · simp [validateLoop, hl, hlen, chunkOk, ih]

theorem validate_chunks_fst_iff (disk : Disk) (l : List ChunkInfo) :
    (validate_chunks disk l).1 = true ↔ ∀ c ∈ l, chunkOk disk c = true := by
  rw [validate_chunks, validateLoop_fst, List.all_eq_true]
  constructor
  · intro h c hc
    exact h c (mem_sortByIndex.mpr hc)
  · intro h c hc
    exact h c (mem_sortByIndex.mp hc)

theorem validate_chunks_reports (disk : Disk) (l : List ChunkInfo)
    {c : ChunkInfo} (hc : c ∈ l) (hfail : chunkOk disk c = false) :
    c.chunk_path ∈ (validate_chunks disk l).2 := by
  rw [validate_chunks, validateLoop_snd]
  refine List.mem_map.mpr ⟨c, ?_, rfl⟩
  refine List.mem_filter.mpr ⟨mem_sortByIndex.mpr hc, ?_⟩
  simp [hfail]

/-! ### Injectivity of the fragment-name format -/

theorem digitChar_inj_lt : ∀ a, a < 10 → ∀ b, b < 10 →
    digitChar a = digitChar b → a = b := by decide

theorem digitChar_ne_zeroChar : ∀ d, d < 10 → d ≠ 0 → digitChar d ≠ '0' := by
  decide

theorem digits_single {n : Nat} (hn : n ≠ 0) (h : n < 10) :
    Nat.digits 10 n = [n] := by
  rw [Nat.digits_def' (by norm_num : 1 < 10) (Nat.pos_of_ne_zero hn),
    Nat.mod_eq_of_lt h, Nat.div_eq_of_lt h, Nat.digits_zero]

theorem natCharsCore_eq : ∀ fuel n, n ≠ 0 → n ≤ fuel →
    natCharsCore fuel n = ((Nat.digits 10 n).map digitChar).reverse := by
  intro fuel
  induction fuel with
  | zero => intro n hn hle; omega
  | succ f ih =>
    intro n hn hle
    by_cases h : n < 10
    · rw [natCharsCore, if_pos h, digits_single hn h]
      simp
    · have h10 : 10 ≤ n := by omega
      have hq : n / 10 ≠ 0 := by
        have := Nat.div_pos h10 (by norm_num : 0 < 10)
        omega
      have hqf : n / 10 ≤ f := by
        have := Nat.div_lt_self (Nat.pos_of_ne_zero hn) (by norm_num : 1 < 10)
        omega
      rw [natCharsCore, if_neg h, ih (n / 10) hq hqf,
        Nat.digits_def' (by norm_num : 1 < 10) (Nat.pos_of_ne_zero hn)]
      simp

theorem natChars_eq {n : Nat} (hn : n ≠ 0) :
    natChars n = ((Nat.digits 10 n).map digitChar).reverse :=
  natCharsCore_eq n n hn le_rfl

theorem map_digitChar_inj : ∀ {l1 l2 : List Nat}, (∀ x ∈ l1, x < 10) →
    (∀ x ∈ l2, x < 10) → l1.map digitChar = l2.map digitChar → l1 = l2 := by
  intro l1
  induction l1 with
  | nil =>
    intro l2 _ _ h
    cases l2 with
    | nil => rfl
    | cons b u => simp at h
  | cons a t ih =>
    intro l2 h1 h2 h
    cases l2 with
    | nil => simp at h
    | cons b u =>
      simp only [List.map_cons, List.cons.injEq] at h
      have hab := digitChar_inj_lt a (h1 a (by simp)) b (h2 b (by simp)) h.1
      have htu := ih (fun x hx => h1 x (by simp [hx]))
        (fun x hx => h2 x (by simp [hx])) h.2
      rw [hab, htu]

theorem natChars_inj {n m : Nat} (hn : n ≠ 0) (hm : m ≠ 0)
    (h : natChars n = natChars m) : n = m := by
  rw [natChars_eq hn, natChars_eq hm] at h
  have hmap : (Nat.digits 10 n).map digitChar = (Nat.digits 10 m).map digitChar :=
    List.reverse_injective h
  have hd : Nat.digits 10 n = Nat.digits 10 m :=
    map_digitChar_inj
      (fun x hx => Nat.digits_lt_base (by norm_num) hx)
      (fun x hx => Nat.digits_lt_base (by norm_num) hx) hmap
  calc n = Nat.ofDigits 10 (Nat.digits 10 n) := (Nat.ofDigits_digits 10 n).symm
    _ = Nat.ofDigits 10 (Nat.digits 10 m) := by rw [hd]
    _ = m := Nat.ofDigits_digits 10 m

theorem natChars_head_ne {n : Nat} (hn : n ≠ 0) :
    ∀ rest : List Char, natChars n ≠ '0' :: rest := by
  intro rest hcontra
  have hne : Nat.digits 10 n ≠ [] := Nat.digits_ne_nil_iff_ne_zero.mpr hn
  have hhead : (natChars n).head? = some '0' := by rw [hcontra]; rfl
  rw [natChars_eq hn, List.head?_reverse, List.getLast?_map,
    List.getLast?_eq_getLast _ hne] at hhead
  have hd0 : digitChar ((Nat.digits 10 n).getLast hne) = '0' := by
    simpa using hhead
  have hlt : (Nat.digits 10 n).getLast hne < 10 :=
    Nat.digits_lt_base (by norm_num) (List.getLast_mem hne)
  have hnz : (Nat.digits 10 n).getLast hne ≠ 0 :=
    Nat.getLast_digit_ne_zero 10 hn
  exact digitChar_ne_zeroChar _ hlt hnz hd0

theorem string_mk_inj {l1 l2 : List Char} (h : (⟨l1⟩ : String) = ⟨l2⟩) :
    l1 = l2 :=
  congrArg String.data h

theorem formatTwoDigit_inj {n m : Nat}
    (h : formatTwoDigit n = formatTwoDigit m) : n = m := by
  have h00 : ("00" : String).data = ['0', '0'] := rfl
  unfold formatTwoDigit at h
  by_cases hn0 : n = 0 <;> by_cases hm0 : m = 0
  · omega
  · exfalso
    subst hn0
    rw [if_pos rfl, if_neg hm0] at h
    by_cases hm10 : m < 10
    · rw [if_pos hm10] at h
      have hd : ['0', '0'] = '0' :: natChars m := by
        rw [← h00, h]
      have hm' : natChars m = ['0'] := by
        simpa using hd.symm
      exact natChars_head_ne hm0 [] hm'
    · rw [if_neg hm10] at h
      have hd : ['0', '0'] = natChars m := by
        rw [← h00, h]
      exact natChars_head_ne hm0 ['0'] hd.symm
  · exfalso
    subst hm0
    rw [if_pos rfl, if_neg hn0] at h
    by_cases hn10 : n < 10
    · rw [if_pos hn10] at h
      have hd : '0' :: natChars n = ['0', '0'] := by
        rw [← h00, ← h]
      have hn' : natChars n = ['0'] := by
        simpa using hd
      exact natChars_head_ne hn0 [] hn'
    · rw [if_neg hn10] at h
      have hd : natChars n = ['0', '0'] := by
        rw [← h00, ← h]
      exact natChars_head_ne hn0 ['0'] hd
  · rw [if_neg hn0, if_neg hm0] at h
    by_cases hn10 : n < 10 <;> by_cases hm10 : m < 10
    · rw [if_pos hn10, if_pos hm10] at h
      have hd := string_mk_inj h
      exact natChars_inj hn0 hm0 (by simpa using hd)
    · exfalso
      rw [if_pos hn10, if_neg hm10] at h
      exact natChars_head_ne hm0 (natChars n) (string_mk_inj h).symm
    · exfalso
      rw [if_neg hn10, if_pos hm10] at h
      exact natChars_head_ne hn0 (natChars m) (string_mk_inj h)
    · rw [if_neg hn10, if_neg hm10] at h
      exact natChars_inj hn0 hm0 (string_mk_inj h)

theorem partName_inj {fileName : String} {i j : Nat}
    (h : partName fileName i = partName fileName j) : i = j := by
  unfold partName at h
  have hd := congrArg String.data h
  simp only [String.data_append, List.append_assoc] at hd
  have hfd := List.append_cancel_left (List.append_cancel_left hd)
  exact formatTwoDigit_inj (String.ext hfd)

theorem partPath_inj {dir fileName : String} {i j : Nat}
    (h : partPath dir fileName i = partPath dir fileName j) : i = j := by
  unfold partPath pathJoin at h
  have hd := congrArg String.data h
  simp only [String.data_append, List.append_assoc] at hd
  have hfd := List.append_cancel_left (List.append_cancel_left hd)
  exact partName_inj (String.ext hfd)

/-! ### Splitting lemmas -/

theorem splitLoop_succ (dir fileName : String) (c : Nat) (content : List Nat)
    (s k : Nat) (disk : Disk) :
    splitLoop dir fileName c content s (k + 1) disk =
      ({ chunk_name := partName fileName (s + 1)
         chunk_path := partPath dir fileName (s + 1)
         chunk_size_bytes := (content.take c).length
         chunk_hash := hashBytes (content.take c)
         chunk_index := s + 1 } ::
        (splitLoop dir fileName c (content.drop c) (s + 1) k
          (disk.write (partPath dir fileName (s + 1)) (content.take c))).1,
       (splitLoop dir fileName c (content.drop c) (s + 1) k
          (disk.write (partPath dir fileName (s + 1)) (content.take c))).2) :=
  rfl

theorem splitLoop_length (dir fileName : String) (c : Nat) :
    ∀ count content s (disk : Disk),
      (splitLoop dir fileName c content s count disk).1.length = count := by
  intro count
  induction count with
  | zero => intro content s disk; rfl
  | succ k ih =>
    intro content s disk
    rw [splitLoop_succ]
    simp [ih]

theorem splitLoop_lookup_untouched (dir fileName : String) (c : Nat) :
    ∀ count content s (disk : Disk) (q : String),
      (∀ j, s < j → j ≤ s + count → q ≠ partPath dir fileName j) →
      ((splitLoop dir fileName c content s count disk).2).lookup q =
        disk.lookup q := by
  intro count
  induction count with
  | zero => intro content s disk q _; rfl
  | succ k ih =>
    intro content s disk q hq
    rw [splitLoop_succ]
    rw [ih (content.drop c) (s + 1) _ q
      (fun j hj1 hj2 => hq j (by omega) (by omega))]
    exact Disk.lookup_write_ne disk (hq (s + 1) (by omega) (by omega)).symm _

theorem splitLoop_index_lb (dir fileName : String) (c : Nat) :
    ∀ count content s (disk : Disk),
      ∀ info ∈ (splitLoop dir fileName c content s count disk).1,
        s + 1 ≤ info.chunk_index := by
  intro count
  induction count with
  | zero => intro content s disk info h; simp [splitLoop] at h
  | succ k ih =>
    intro content s disk info h
    rw [splitLoop_succ] at h
    rcases List.mem_cons.mp h with h0 | h1
    · subst h0; exact Nat.le_refl (s + 1)
    · have := ih (content.drop c) (s + 1) _ info h1
      omega

theorem splitLoop_pairwise (dir fileName : String) (c : Nat) :
    ∀ count content s (disk : Disk),
      ((splitLoop dir fileName c content s count disk).1).Pairwise
        (fun a b => a.chunk_index ≤ b.chunk_index) := by
  intro count
  induction count with
  | zero => intro content s disk; simp [splitLoop]
  | succ k ih =>
    intro content s disk
    rw [splitLoop_succ]
    refine List.Pairwise.cons ?_ (ih (content.drop c) (s + 1) _)
    intro x hx
    have := splitLoop_index_lb dir fileName c k (content.drop c) (s + 1) _ x hx
    show s + 1 ≤ x.chunk_index
    omega

theorem splitLoop_chunkOk (dir fileName : String) (c : Nat) :
    ∀ count content s (disk : Disk),
      ∀ info ∈ (splitLoop dir fileName c content s count disk).1,
        chunkOk (splitLoop dir fileName c content s count disk).2 info = true := by
  intro count
  induction count with
  | zero => intro content s disk info h; simp [splitLoop] at h
  | succ k ih =>
    intro content s disk info h
    rw [splitLoop_succ] at h ⊢
    rcases List.mem_cons.mp h with h0 | h1
    · subst h0
      have hlook : ((splitLoop dir fileName c (content.drop c) (s + 1) k
          (disk.write (partPath dir fileName (s + 1)) (content.take c))).2).lookup
            (partPath dir fileName (s + 1)) = some (content.take c) := by
        rw [splitLoop_lookup_untouched dir fileName c k _ (s + 1) _ _
          (fun j hj1 _ => fun hcon => by
            have := partPath_inj hcon
            omega)]
        exact Disk.lookup_write_self _ _ _
      simp [chunkOk, hlook]
    · exact ih (content.drop c) (s + 1) _ info h1

theorem splitLoop_flatten (dir fileName : String) (c : Nat) :
    ∀ count content s (disk : Disk),
      ((splitLoop dir fileName c content s count disk).1.map
        (fun i =>
          (((splitLoop dir fileName c content s count disk).2).lookup
            i.chunk_path).getD [])).flatten = content.take (c * count) := by
  intro count
  induction count with
  | zero => intro content s disk; simp [splitLoop]
  | succ k ih =>
    intro content s disk
    rw [splitLoop_succ]
    have hlook : ((splitLoop dir fileName c (content.drop c) (s + 1) k
        (disk.write (partPath dir fileName (s + 1)) (content.take c))).2).lookup
          (partPath dir fileName (s + 1)) = some (content.take c) := by
      rw [splitLoop_lookup_untouched dir fileName c k _ (s + 1) _ _
        (fun j hj1 _ => fun hcon => by
          have := partPath_inj hcon
          omega)]
      exact Disk.lookup_write_self _ _ _
    simp only [List.map_cons, List.flatten_cons, hlook, Option.getD_some]
    rw [ih (content.drop c) (s + 1) _]
    rw [Nat.mul_succ, Nat.add_comm (c * k) c, List.take_add]

theorem splitLoop_sizes_sum (dir fileName : String) (c : Nat) :
    ∀ count content s (disk : Disk),
      (((splitLoop dir fileName c content s count disk).1).map
        (·.chunk_size_bytes)).sum = min (c * count) content.length := by
  intro count
  induction count with
  | zero => intro content s disk; simp [splitLoop]
  | succ k ih =>
    intro content s disk
    rw [splitLoop_succ]
    simp only [List.map_cons, List.sum_cons, ih (content.drop c) (s + 1),
      List.length_take, List.length_drop]
    have hmul : c * (k + 1) = c * k + c := Nat.mul_succ c k
    generalize c * k = P at hmul ⊢
    rw [hmul]
    omega

theorem splitLoop_dropLast_sizes (dir fileName : String) (c : Nat) :
    ∀ count content s (disk : Disk),
      c * count < content.length + c →
      ∀ info ∈ ((splitLoop dir fileName c content s count disk).1).dropLast,
        info.chunk_size_bytes = c := by
  intro count
  induction count with
  | zero => intro content s disk _ info h; simp [splitLoop] at h
  | succ k ih =>
    intro content s disk hlt info h
    rw [splitLoop_succ] at h
    cases hk : k with
    | zero =>
      subst hk
      have : (splitLoop dir fileName c (content.drop c) (s + 1) 0
          (disk.write (partPath dir fileName (s + 1)) (content.take c))).1 = [] :=
        rfl
      rw [this] at h
      simp at h
    | succ k' =>
      subst hk
      have hne : (splitLoop dir fileName c (content.drop c) (s + 1) (k' + 1)
          (disk.write (partPath dir fileName (s + 1)) (content.take c))).1 ≠ [] := by
        intro hcon
        have := splitLoop_length dir fileName c (k' + 1) (content.drop c) (s + 1)
          (disk.write (partPath dir fileName (s + 1)) (content.take c))
        rw [hcon] at this
        simp at this
      rw [List.dropLast_cons_of_ne_nil hne] at h
      have hclen : c ≤ content.length := by
        have h1 : c * (k' + 1 + 1) = c * (k' + 1) + c := Nat.mul_succ c (k' + 1)
        have h2 : c ≤ c * (k' + 1) := Nat.le_mul_of_pos_right c (by omega)
        generalize c * (k' + 1 + 1) = P at h1 hlt
        generalize c * (k' + 1) = Q at h1 h2
        omega
      rcases List.mem_cons.mp h with h0 | h1
      · subst h0
        simp only [List.length_take]
        omega
      · refine ih (content.drop c) (s + 1) _ ?_ info h1
        simp only [List.length_drop]
        have h1 : c * (k' + 1 + 1) = c * (k' + 1) + c := Nat.mul_succ c (k' + 1)
        generalize c * (k' + 1 + 1) = P at h1 hlt
        generalize c * (k' + 1) = Q at h1 ⊢
        omega

/-! ### Ceiling-division arithmetic -/

theorem ceilDiv_zero_left {c : Nat} (hc : 0 < c) : ceilDiv 0 c = 0 := by
  unfold ceilDiv
  exact Nat.div_eq_of_lt (by omega)

theorem ceilDiv_succ {l c : Nat} (hc : 0 < c) :
    ceilDiv (l + 1) c = l / c + 1 := by
  unfold ceilDiv
  have : l + 1 + c - 1 = l + c := by omega
  rw [this, Nat.add_div_right l hc]

theorem le_mul_ceilDiv {len c : Nat} (hc : 0 < c) : len ≤ c * ceilDiv len c := by
  cases len with
  | zero => simp [ceilDiv_zero_left hc]
  | succ l =>
    rw [ceilDiv_succ hc, Nat.mul_succ]
    have h1 := Nat.div_add_mod l c
    have h2 := Nat.mod_lt l hc
    generalize c * (l / c) = P at h1 ⊢
    generalize l % c = r at h1 h2
    omega

theorem mul_ceilDiv_lt {len c : Nat} (hc : 0 < c) (hpos : 0 < ceilDiv len c) :
    c * ceilDiv len c < len + c := by
  cases len with
  | zero =>
    rw [ceilDiv_zero_left hc] at hpos
    omega
  | succ l =>
    rw [ceilDiv_succ hc, Nat.mul_succ]
    have h1 := Nat.mul_div_le l c
    generalize c * (l / c) = P at h1 ⊢
    omega

/-! ### Cleanup-loop lemmas -/

theorem cleanup_preserves_none (infos : List ChunkInfo) :
    ∀ (d : Disk) (q : String), d.lookup q = none →
      (infos.foldl
        (fun d info =>
          if (d.lookup info.chunk_path).isSome then d.removeFile info.chunk_path
          else d) d).lookup q = none := by
  induction infos with
  | nil => intro d q h; exact h
  | cons i rest ih =>
    intro d q h
    simp only [List.foldl_cons]
    apply ih
    by_cases hs : (d.lookup i.chunk_path).isSome
    · rw [if_pos hs, Disk.lookup_removeFile]
      by_cases hq : q = i.chunk_path
      · rw [if_pos hq]
      · rw [if_neg hq]; exact h
    · rw [if_neg hs]; exact h

theorem cleanup_removes (infos : List ChunkInfo) :
    ∀ (d : Disk) (p : String), p ∈ infos.map (·.chunk_path) →
      (infos.foldl
        (fun d info =>
          if (d.lookup info.chunk_path).isSome then d.removeFile info.chunk_path
          else d) d).lookup p = none := by
  induction infos with
  | nil => intro d p h; simp at h
  | cons i rest ih =>
    intro d p h
    simp only [List.map_cons, List.mem_cons] at h
    simp only [List.foldl_cons]
    rcases h with h0 | h1
    · subst h0
      apply cleanup_preserves_none
      by_cases hs : (d.lookup i.chunk_path).isSome
      · rw [if_pos hs]
        exact Disk.lookup_removeFile_self d i.chunk_path
      · rw [if_neg hs]
        cases hlk : d.lookup i.chunk_path with
        | none => rfl
        | some v => rw [hlk] at hs; simp at hs
    · exact ih _ p h1

/-! ### Claim C3 -/

/-- C3: for every successful split (with a positive configured chunk size),
the recorded per-chunk byte sizes sum to the recorded
`original_file_size_bytes`, and every chunk but possibly the last records
exactly the configured chunk size. -/
theorem c3_chunk_sum_invariant (chunkSize : Nat) (hc : 0 < chunkSize)
    (dir fileName : String) (content : List Nat) (disk : Disk) :
    ((((split_large_file chunkSize dir fileName content disk).1).chunks.map
        (·.chunk_size_bytes)).sum =
      ((split_large_file chunkSize dir fileName content disk).1).original_file_size_bytes) ∧
    (∀ info ∈
        (((split_large_file chunkSize dir fileName content disk).1).chunks).dropLast,
      info.chunk_size_bytes = chunkSize) := by
  constructor
  · show (((splitLoop dir fileName chunkSize content 0
        (ceilDiv content.length chunkSize) disk).1).map (·.chunk_size_bytes)).sum
      = content.length
    rw [splitLoop_sizes_sum]
    exact Nat.min_eq_right (le_mul_ceilDiv hc)
  · show ∀ info ∈ ((splitLoop dir fileName chunkSize content 0
        (ceilDiv content.length chunkSize) disk).1).dropLast,
      info.chunk_size_bytes = chunkSize
    by_cases hcount : ceilDiv content.length chunkSize = 0
    · rw [hcount]
      intro info h
      simp [splitLoop] at h
    · exact splitLoop_dropLast_sizes dir fileName chunkSize _ content 0 disk
        (mul_ceilDiv_lt hc (Nat.pos_of_ne_zero hcount))

theorem c3_chunk_sum_invariant_witness :
    ((((split_large_file 2 "d" "a.jar" [1, 2, 3] []).1).chunks.map
        (·.chunk_size_bytes)).sum =
      ((split_large_file 2 "d" "a.jar" [1, 2, 3] []).1).original_file_size_bytes) ∧
    (∀ info ∈ (((split_large_file 2 "d" "a.jar" [1, 2, 3] []).1).chunks).dropLast,
      info.chunk_size_bytes = 2) :=
  c3_chunk_sum_invariant 2 (by decide) "d" "a.jar" [1, 2, 3] []

/-! ### Claim C4 -/

/-- C4: `validate_chunks` returns `True` iff every chunk passes all three
checks (fragment exists, on-disk size equals the recorded size exactly,
recomputed hash equals the recorded hash — the conjunction `chunkOk`), and
it does not stop at the first failing chunk: every failing chunk's report
appears in the collected failure output. -/
theorem c4_chunk_verification (disk : Disk) (l : List ChunkInfo) :
    ((validate_chunks disk l).1 = true ↔ ∀ c ∈ l, chunkOk disk c = true) ∧
    (∀ c ∈ l, chunkOk disk c = false →
      c.chunk_path ∈ (validate_chunks disk l).2) :=
  ⟨validate_chunks_fst_iff disk l,
    fun _c hc hf => validate_chunks_reports disk l hc hf⟩

theorem c4_chunk_verification_witness :
    (validate_chunks [("p1", [5])]
        [⟨"c1", "p1", 1, hashBytes [5], 1⟩, ⟨"c2", "p2", 1, 0, 2⟩]).1 = false ∧
    "p2" ∈ (validate_chunks [("p1", [5])]
        [⟨"c1", "p1", 1, hashBytes [5], 1⟩, ⟨"c2", "p2", 1, 0, 2⟩]).2 := by
  constructor
  · decide
  · exact (c4_chunk_verification [("p1", [5])]
      [⟨"c1", "p1", 1, hashBytes [5], 1⟩, ⟨"c2", "p2", 1, 0, 2⟩]).2
      ⟨"c2", "p2", 1, 0, 2⟩ (by decide) (by decide)

/-! ### Claim C5 -/

/-- C5 counterexample: splitting `[1,2,3,4,5,6]` with chunk size 2 fails
while writing the second fragment (after `[3]` reached its file). The claim
says every fragment already produced — including the one being written — is
deleted, but after the cleanup the second fragment is still on disk with the
interrupted data. -/
theorem c5_counterexample :
    (split_large_file_failingAt 2 "d" "a.jar" [1, 2, 3, 4, 5, 6] 1 [3]
      []).lookup (partPath "d" "a.jar" 2) = some [3] := by
  decide

/-- C5 (amended): when a split fails mid-way, every fragment that was
completed and recorded in `chunk_info_list` before the failure is deleted
before the error is propagated; only the fragment whose own write raised the
failure (never recorded) can remain. -/
theorem c5_cleanup_amended (chunkSize : Nat) (dir fileName : String)
    (content : List Nat) (failIdx : Nat) (interruptedData : List Nat)
    (disk : Disk) (p : String)
    (hp : p ∈ ((splitLoop dir fileName chunkSize content 0 failIdx disk).1).map
      (·.chunk_path)) :
    (split_large_file_failingAt chunkSize dir fileName content failIdx
      interruptedData disk).lookup p = none := by
  unfold split_large_file_failingAt
  exact cleanup_removes _ _ p hp

theorem c5_cleanup_amended_witness :
    (split_large_file_failingAt 2 "d" "a.jar" [1, 2, 3, 4, 5, 6] 1 [3]
      []).lookup (partPath "d" "a.jar" 1) = none :=
  c5_cleanup_amended 2 "d" "a.jar" [1, 2, 3, 4, 5, 6] 1 [3] [] _ (by decide)

/-! ### Branch lemmas for `restore_split_file` -/

theorem restore_already_exists (fi : FileInfo) (outputDir : String)
    (disk : Disk)
    (h : (disk.lookup (pathJoin outputDir (basename fi.file_path))).isSome) :
    restore_split_file fi outputDir disk = (false, disk) := by
  simp only [restore_split_file]
  rw [if_pos h]

theorem restore_validate_failed (fi : FileInfo) (sd : SplitInfo)
    (outputDir : String) (disk : Disk)
    (hsd : fi.split_details = some sd)
    (hfresh : disk.lookup (pathJoin outputDir (basename fi.file_path)) = none)
    (hvalid : (validate_chunks disk sd.chunks).1 = false) :
    restore_split_file fi outputDir disk = (false, disk) := by
  simp only [restore_split_file]
  rw [hfresh, hsd]
  simp [hvalid]

theorem restore_split_file_success (fi : FileInfo) (sd : SplitInfo)
    (outputDir : String) (disk : Disk)
    (hsd : fi.split_details = some sd)
    (hfresh : disk.lookup (pathJoin outputDir (basename fi.file_path)) = none)
    (hvalid : (validate_chunks disk sd.chunks).1 = true)
    (hsize : (((sortByIndex sd.chunks).map
        (fun c => (disk.lookup c.chunk_path).getD [])).flatten).length =
      fi.file_size_bytes)
    (hhash : fi.file_hash = some (hashBytes (((sortByIndex sd.chunks).map
        (fun c => (disk.lookup c.chunk_path).getD [])).flatten))) :
    restore_split_file fi outputDir disk =
      (true, disk.write (pathJoin outputDir (basename fi.file_path))
        (((sortByIndex sd.chunks).map
          (fun c => (disk.lookup c.chunk_path).getD [])).flatten)) := by
  simp only [restore_split_file]
  rw [hfresh, hsd]
  simp [hvalid, hsize, hhash]

theorem restore_no_output_or_true (fi : FileInfo) (outputDir : String)
    (disk : Disk)
    (hfresh : disk.lookup (pathJoin outputDir (basename fi.file_path)) = none) :
    ((restore_split_file fi outputDir disk).2).lookup
        (pathJoin outputDir (basename fi.file_path)) = none ∨
      (restore_split_file fi outputDir disk).1 = true := by
  simp only [restore_split_file]
  rw [hfresh]
  simp only [Option.isSome_none, Bool.false_eq_true, if_false]
  cases hsd : fi.split_details with
  | none => exact Or.inl hfresh
  | some sd =>
    dsimp only
    by_cases hv : (validate_chunks disk sd.chunks).1 = false
    · rw [if_pos hv]
      exact Or.inl hfresh
    · rw [if_neg hv]
      by_cases hs : (((sortByIndex sd.chunks).map
          (fun c => (disk.lookup c.chunk_path).getD [])).flatten).length ≠
            fi.file_size_bytes
      · rw [if_pos hs]
        exact Or.inl (Disk.lookup_removeFile_self _ _)
      · rw [if_neg hs]
        by_cases hh : fi.file_hash ≠ some (hashBytes (((sortByIndex sd.chunks).map
            (fun c => (disk.lookup c.chunk_path).getD [])).flatten))
        · rw [if_pos hh]
          exact Or.inl (Disk.lookup_removeFile_self _ _)
        · rw [if_neg hh]
          exact Or.inr rfl

theorem restore_false_no_output (fi : FileInfo) (outputDir : String)
    (disk : Disk)
    (hfresh : disk.lookup (pathJoin outputDir (basename fi.file_path)) = none)
    (hfalse : (restore_split_file fi outputDir disk).1 = false) :
    ((restore_split_file fi outputDir disk).2).lookup
      (pathJoin outputDir (basename fi.file_path)) = none := by
  rcases restore_no_output_or_true fi outputDir disk hfresh with h | h
  · exact h
  · rw [hfalse] at h
    simp at h

theorem restore_failingWrite_no_output (fi : FileInfo) (outputDir : String)
    (interruptedData : List Nat) (disk : Disk)
    (hfresh : disk.lookup (pathJoin outputDir (basename fi.file_path)) = none) :
    (restore_split_file_failingWrite fi outputDir interruptedData disk).1 =
        false ∧
      ((restore_split_file_failingWrite fi outputDir interruptedData
        disk).2).lookup (pathJoin outputDir (basename fi.file_path)) = none := by
  simp only [restore_split_file_failingWrite]
  rw [hfresh]
  simp only [Option.isSome_none, Bool.false_eq_true, if_false]
  cases hsd : fi.split_details with
  | none =>
    dsimp only
    exact ⟨rfl, hfresh⟩
  | some sd =>
    dsimp only
    by_cases hv : (validate_chunks disk sd.chunks).1 = false
    · rw [if_pos hv]
      exact ⟨rfl, hfresh⟩
    · rw [if_neg hv]
      refine ⟨rfl, ?_⟩
      rw [Disk.lookup_write_self]
      simp only [Option.isSome_some, if_true]
      exact Disk.lookup_removeFile_self _ _

theorem restore_check_failed_fst (fi : FileInfo) (sd : SplitInfo)
    (outputDir : String) (disk : Disk)
    (hsd : fi.split_details = some sd)
    (hfresh : disk.lookup (pathJoin outputDir (basename fi.file_path)) = none)
    (hvalid : (validate_chunks disk sd.chunks).1 = true)
    (hbad : ¬(((((sortByIndex sd.chunks).map
        (fun c => (disk.lookup c.chunk_path).getD [])).flatten).length =
          fi.file_size_bytes) ∧
      fi.file_hash = some (hashBytes (((sortByIndex sd.chunks).map
        (fun c => (disk.lookup c.chunk_path).getD [])).flatten)))) :
    (restore_split_file fi outputDir disk).1 = false := by
  simp only [restore_split_file]
  rw [hfresh, hsd]
  simp only [Option.isSome_none, Bool.false_eq_true, if_false]
  rw [if_neg (by rw [hvalid]; simp)]
  by_cases hs : (((sortByIndex sd.chunks).map
      (fun c => (disk.lookup c.chunk_path).getD [])).flatten).length ≠
        fi.file_size_bytes
  · rw [if_pos hs]
  · rw [if_neg hs]
    have hh : fi.file_hash ≠ some (hashBytes (((sortByIndex sd.chunks).map
        (fun c => (disk.lookup c.chunk_path).getD [])).flatten)) := by
      intro hcon
      exact hbad ⟨Decidable.not_not.mp hs, hcon⟩
    rw [if_pos hh]

theorem restore_success_shape (fi : FileInfo) (sd : SplitInfo)
    (outputDir : String) (disk : Disk)
    (hsd : fi.split_details = some sd)
    (htrue : (restore_split_file fi outputDir disk).1 = true) :
    (restore_split_file fi outputDir disk).2 =
      disk.write (pathJoin outputDir (basename fi.file_path))
        (((sortByIndex sd.chunks).map
          (fun c => (disk.lookup c.chunk_path).getD [])).flatten) ∧
    ((((sortByIndex sd.chunks).map
        (fun c => (disk.lookup c.chunk_path).getD [])).flatten).length =
      fi.file_size_bytes) ∧
    fi.file_hash = some (hashBytes (((sortByIndex sd.chunks).map
      (fun c => (disk.lookup c.chunk_path).getD [])).flatten)) := by
  by_cases hex : (disk.lookup (pathJoin outputDir (basename fi.file_path))).isSome
  · rw [restore_already_exists fi outputDir disk hex] at htrue
    simp at htrue
  · have hfresh : disk.lookup (pathJoin outputDir (basename fi.file_path))
        = none := by
      cases hlk : disk.lookup (pathJoin outputDir (basename fi.file_path)) with
      | none => rfl
      | some v => rw [hlk] at hex; simp at hex
    by_cases hv : (validate_chunks disk sd.chunks).1 = false
    · rw [restore_validate_failed fi sd outputDir disk hsd hfresh hv] at htrue
      simp at htrue
    · have hvalid : (validate_chunks disk sd.chunks).1 = true := by
        cases h' : (validate_chunks disk sd.chunks).1 with
        | false => exact absurd h' hv
        | true => rfl
      by_cases hchecks : ((((sortByIndex sd.chunks).map
          (fun c => (disk.lookup c.chunk_path).getD [])).flatten).length =
            fi.file_size_bytes) ∧
          fi.file_hash = some (hashBytes (((sortByIndex sd.chunks).map
            (fun c => (disk.lookup c.chunk_path).getD [])).flatten))
      · rw [restore_split_file_success fi sd outputDir disk hsd hfresh hvalid
          hchecks.1 hchecks.2]
        exact ⟨rfl, hchecks.1, hchecks.2⟩
      · rw [restore_check_failed_fst fi sd outputDir disk hsd hfresh hvalid
          hchecks] at htrue
        simp at htrue

theorem restore_no_details (fi : FileInfo) (outputDir : String) (disk : Disk)
    (hsd : fi.split_details = none)
    (hfresh : disk.lookup (pathJoin outputDir (basename fi.file_path)) = none) :
    restore_split_file fi outputDir disk = (false, disk) := by
  simp only [restore_split_file]
  rw [hfresh, hsd]
  simp

theorem restore_second_lookup (fi : FileInfo) (outputDir : String)
    (disk : Disk) (htrue : (restore_split_file fi outputDir disk).1 = true) :
    ∃ written, (restore_split_file fi outputDir disk).2 =
      disk.write (pathJoin outputDir (basename fi.file_path)) written := by
  cases hsd : fi.split_details with
  | none =>
    exfalso
    by_cases hex : (disk.lookup (pathJoin outputDir (basename fi.file_path))).isSome
    · rw [restore_already_exists fi outputDir disk hex] at htrue
      simp at htrue
    · have hfresh : disk.lookup (pathJoin outputDir (basename fi.file_path))
          = none := by
        cases hlk : disk.lookup (pathJoin outputDir (basename fi.file_path)) with
        | none => rfl
        | some v => rw [hlk] at hex; simp at hex
      rw [restore_no_details fi outputDir disk hsd hfresh] at htrue
      simp at htrue
  | some sd =>
    exact ⟨_, (restore_success_shape fi sd outputDir disk hsd htrue).1⟩

/-! ### Claim C1 -/

/-- C1: round trip. Splitting a file of arbitrary content with a positive
chunk size (covering sizes divisible by the chunk size, one over a multiple,
below one chunk, and zero), leaving the fragments intact, and reassembling
the resulting record while the output path is not present, succeeds and
writes a file byte-identical to the original (hence with the same byte count
and the same content hash). -/
theorem c1_round_trip (chunkSize : Nat) (hc : 0 < chunkSize)
    (dir fileName outputDir filePath : String) (content : List Nat)
    (disk0 : Disk)
    (hfresh : ((split_large_file chunkSize dir fileName content disk0).2).lookup
      (pathJoin outputDir (basename filePath)) = none) :
    restore_split_file
        { file_path := filePath, file_name := fileName
          file_size_bytes := content.length
          file_hash := some (hashBytes content)
          is_split := true
          split_details :=
            some (split_large_file chunkSize dir fileName content disk0).1 }
        outputDir
        (split_large_file chunkSize dir fileName content disk0).2 =
      (true, ((split_large_file chunkSize dir fileName content disk0).2).write
        (pathJoin outputDir (basename filePath)) content) ∧
    ((((split_large_file chunkSize dir fileName content disk0).2).write
        (pathJoin outputDir (basename filePath)) content).lookup
      (pathJoin outputDir (basename filePath)) = some content) := by
  have hchunks : ((split_large_file chunkSize dir fileName content disk0).1).chunks
      = (splitLoop dir fileName chunkSize content 0
          (ceilDiv content.length chunkSize) disk0).1 := rfl
  have hdisk : (split_large_file chunkSize dir fileName content disk0).2
      = (splitLoop dir fileName chunkSize content 0
          (ceilDiv content.length chunkSize) disk0).2 := rfl
  have hsort : sortByIndex
      ((split_large_file chunkSize dir fileName content disk0).1).chunks =
      ((split_large_file chunkSize dir fileName content disk0).1).chunks := by
    rw [hchunks]
    exact sortByIndex_eq_self
      (splitLoop_pairwise dir fileName chunkSize _ content 0 disk0)
  have hvalid : (validate_chunks
      (split_large_file chunkSize dir fileName content disk0).2
      ((split_large_file chunkSize dir fileName content disk0).1).chunks).1
        = true := by
    apply (validate_chunks_fst_iff _ _).mpr
    intro c hcmem
    rw [hchunks] at hcmem
    rw [hdisk]
    exact splitLoop_chunkOk dir fileName chunkSize _ content 0 disk0 c hcmem
  have hflat : ((sortByIndex
      ((split_large_file chunkSize dir fileName content disk0).1).chunks).map
      (fun c =>
        (((split_large_file chunkSize dir fileName content disk0).2).lookup
          c.chunk_path).getD [])).flatten = content := by
    rw [hsort, hchunks, hdisk, splitLoop_flatten]
    exact List.take_of_length_le (le_mul_ceilDiv hc)
  refine ⟨?_, Disk.lookup_write_self _ _ _⟩
  have hres := restore_split_file_success
    { file_path := filePath, file_name := fileName
      file_size_bytes := content.length
      file_hash := some (hashBytes content)
      is_split := true
      split_details :=
        some (split_large_file chunkSize dir fileName content disk0).1 }
    (split_large_file chunkSize dir fileName content disk0).1
    outputDir
    (split_large_file chunkSize dir fileName content disk0).2
    rfl hfresh hvalid (by rw [hflat]) (by rw [hflat])
  rw [hflat] at hres
  exact hres

theorem c1_round_trip_witness :
    restore_split_file
        { file_path := "m/a.jar", file_name := "a.jar"
          file_size_bytes := ([1, 2, 3, 4, 5] : List Nat).length
          file_hash := some (hashBytes [1, 2, 3, 4, 5])
          is_split := true
          split_details :=
            some (split_large_file 2 "m" "a.jar" [1, 2, 3, 4, 5] []).1 }
        "o" (split_large_file 2 "m" "a.jar" [1, 2, 3, 4, 5] []).2 =
      (true, ((split_large_file 2 "m" "a.jar" [1, 2, 3, 4, 5] []).2).write
        (pathJoin "o" (basename "m/a.jar")) [1, 2, 3, 4, 5]) ∧
    ((((split_large_file 2 "m" "a.jar" [1, 2, 3, 4, 5] []).2).write
        (pathJoin "o" (basename "m/a.jar")) [1, 2, 3, 4, 5]).lookup
      (pathJoin "o" (basename "m/a.jar")) = some [1, 2, 3, 4, 5]) :=
  c1_round_trip 2 (by decide) "m" "a.jar" "o" "m/a.jar" [1, 2, 3, 4, 5] []
    (by decide)

/-! ### Claim C2 -/

/-- C2: no corrupt or incomplete reassembly output. With the output path not
already present: (1) if chunk verification fails (for example on a missing
chunk) the reassembler returns `False` with the filesystem unchanged — no
bytes written to the destination; (2) whenever reassembly returns `False`
the destination path does not exist afterwards (covering the post-write size
and hash mismatches, which delete the just-written file); (3) a mid-write
I/O failure also returns `False` and leaves no destination file. -/
theorem c2_no_corrupt_output (fi : FileInfo) (sd : SplitInfo)
    (outputDir : String) (disk : Disk) (interruptedData : List Nat)
    (hsd : fi.split_details = some sd)
    (hfresh : disk.lookup (pathJoin outputDir (basename fi.file_path)) = none) :
    ((validate_chunks disk sd.chunks).1 = false →
      restore_split_file fi outputDir disk = (false, disk)) ∧
    ((restore_split_file fi outputDir disk).1 = false →
      ((restore_split_file fi outputDir disk).2).lookup
        (pathJoin outputDir (basename fi.file_path)) = none) ∧
    ((restore_split_file_failingWrite fi outputDir interruptedData disk).1
        = false ∧
      ((restore_split_file_failingWrite fi outputDir interruptedData
        disk).2).lookup (pathJoin outputDir (basename fi.file_path)) = none) :=
  ⟨fun hv => restore_validate_failed fi sd outputDir disk hsd hfresh hv,
   fun hf => restore_false_no_output fi outputDir disk hfresh hf,
   restore_failingWrite_no_output fi outputDir interruptedData disk hfresh⟩

theorem c2_no_corrupt_output_witness :
    restore_split_file
        ⟨"m/b.jar", "b.jar", 1, some 7, true,
          some ⟨1, 7, 1, [⟨"b.jar.part01", "m/b.jar.part01", 1, 9, 1⟩]⟩⟩
        "o" [] = (false, ([] : Disk)) ∧
    ((restore_split_file_failingWrite
        ⟨"m/b.jar", "b.jar", 1, some 7, true,
          some ⟨1, 7, 1, [⟨"b.jar.part01", "m/b.jar.part01", 1, 9, 1⟩]⟩⟩
        "o" [9] []).2).lookup (pathJoin "o" (basename "m/b.jar")) = none :=
  ⟨(c2_no_corrupt_output
      ⟨"m/b.jar", "b.jar", 1, some 7, true,
        some ⟨1, 7, 1, [⟨"b.jar.part01", "m/b.jar.part01", 1, 9, 1⟩]⟩⟩
      ⟨1, 7, 1, [⟨"b.jar.part01", "m/b.jar.part01", 1, 9, 1⟩]⟩
      "o" [] [9] rfl (by decide)).1 (by decide),
   (c2_no_corrupt_output
      ⟨"m/b.jar", "b.jar", 1, some 7, true,
        some ⟨1, 7, 1, [⟨"b.jar.part01", "m/b.jar.part01", 1, 9, 1⟩]⟩⟩
      ⟨1, 7, 1, [⟨"b.jar.part01", "m/b.jar.part01", 1, 9, 1⟩]⟩
      "o" [] [9] rfl (by decide)).2.2.2⟩

/-! ### Claim C7 -/

/-- C7 counterexample: when the output path already exists the reassembler
returns `False` — the very same value it returns for a failed reassembly
(here: a missing chunk) — so the already-done outcome is not distinct from
the failure outcome, contradicting the claimed distinct no-op signal. -/
theorem c7_counterexample :
    (restore_split_file
        ⟨"m/a.jar", "a.jar", 0, some (hashBytes []), true, some ⟨0, 0, 0, []⟩⟩
        "o" [("o/a.jar", [])]).1 = false ∧
    (restore_split_file
        ⟨"m/c.jar", "c.jar", 1, some 7, true,
          some ⟨1, 7, 1, [⟨"c.jar.part01", "m/c.jar.part01", 1, 9, 1⟩]⟩⟩
        "o" []).1 = false := by
  exact ⟨by decide, by decide⟩

/-- C7 (amended): whenever the reassembly output path already exists, the
reassembler declines immediately, returning `False` — the same value as a
failure, not a distinct no-op signal — with the filesystem unchanged and
without reading any fragment (the result does not depend on the fragment
entries at all); in particular a second reassemble call right after a
successful first one returns `False`. -/
theorem c7_already_exists_amended (fi : FileInfo) (outputDir : String)
    (disk : Disk) :
    (((disk.lookup (pathJoin outputDir (basename fi.file_path))).isSome = true →
      restore_split_file fi outputDir disk = (false, disk)) ∧
    ((restore_split_file fi outputDir disk).1 = true →
      restore_split_file fi outputDir
        ((restore_split_file fi outputDir disk).2) =
        (false, (restore_split_file fi outputDir disk).2))) := by
  constructor
  · intro h
    exact restore_already_exists fi outputDir disk h
  · intro hsucc
    apply restore_already_exists
    rcases restore_second_lookup fi outputDir disk hsucc with ⟨written, hw⟩
    rw [hw, Disk.lookup_write_self]
    rfl

theorem c7_already_exists_amended_witness :
    restore_split_file
        ⟨"m/a.jar", "a.jar", 0, some (hashBytes []), true, some ⟨0, 0, 0, []⟩⟩
        "o" [("o/a.jar", [])] = (false, [("o/a.jar", [])]) ∧
    restore_split_file
        ⟨"m/d.jar", "d.jar", 0, some (hashBytes []), true, some ⟨0, 0, 0, []⟩⟩
        "o"
        ((restore_split_file
          ⟨"m/d.jar", "d.jar", 0, some (hashBytes []), true, some ⟨0, 0, 0, []⟩⟩
          "o" []).2) =
      (false, (restore_split_file
        ⟨"m/d.jar", "d.jar", 0, some (hashBytes []), true, some ⟨0, 0, 0, []⟩⟩
        "o" []).2) :=
  ⟨(c7_already_exists_amended
      ⟨"m/a.jar", "a.jar", 0, some (hashBytes []), true, some ⟨0, 0, 0, []⟩⟩
      "o" [("o/a.jar", [])]).1 (by decide),
   (c7_already_exists_amended
      ⟨"m/d.jar", "d.jar", 0, some (hashBytes []), true, some ⟨0, 0, 0, []⟩⟩
      "o" []).2 (by decide)⟩

/-! ### Claim C10 -/

/-- C10: verifying an empty chunk list succeeds vacuously, and reassembling
a record with zero chunks (output path not present) writes an empty
destination file and succeeds exactly when the recorded size is 0 and the
recorded hash is the hash of empty content. -/
theorem c10_empty_chunkset (fi : FileInfo) (sd : SplitInfo)
    (outputDir : String) (disk : Disk)
    (hsd : fi.split_details = some sd) (hchunks : sd.chunks = [])
    (hfresh : disk.lookup (pathJoin outputDir (basename fi.file_path)) = none) :
    ((validate_chunks disk sd.chunks).1 = true) ∧
    ((restore_split_file fi outputDir disk).1 = true ↔
      (fi.file_size_bytes = 0 ∧ fi.file_hash = some (hashBytes []))) ∧
    (fi.file_size_bytes = 0 → fi.file_hash = some (hashBytes []) →
      restore_split_file fi outputDir disk =
        (true, disk.write (pathJoin outputDir (basename fi.file_path)) [])) := by
  have hvalid : (validate_chunks disk sd.chunks).1 = true := by
    rw [hchunks]
    rfl
  have hflat : ((sortByIndex sd.chunks).map
      (fun c => (disk.lookup c.chunk_path).getD [])).flatten = ([] : List Nat) := by
    rw [hchunks]
    rfl
  refine ⟨hvalid, ?_, ?_⟩
  · constructor
    · intro htrue
      have hshape := restore_success_shape fi sd outputDir disk hsd htrue
      constructor
      · rw [← hshape.2.1, hflat]
        rfl
      · rw [hshape.2.2, hflat]
    · rintro ⟨hs, hh⟩
      rw [restore_split_file_success fi sd outputDir disk hsd hfresh hvalid
        (by rw [hflat]; exact hs.symm) (by rw [hflat]; exact hh)]
  · intro hs hh
    have := restore_split_file_success fi sd outputDir disk hsd hfresh hvalid
      (by rw [hflat]; exact hs.symm) (by rw [hflat]; exact hh)
    rw [hflat] at this
    exact this

theorem c10_empty_chunkset_witness :
    ((validate_chunks [] ([] : List ChunkInfo)).1 = true) ∧
    ((restore_split_file
        ⟨"m/e.jar", "e.jar", 0, some (hashBytes []), true, some ⟨0, 0, 0, []⟩⟩
        "o" []).1 = true ↔ ((0 : Nat) = 0 ∧
          (some (hashBytes []) : Option Nat) = some (hashBytes []))) ∧
    ((0 : Nat) = 0 → (some (hashBytes []) : Option Nat) = some (hashBytes []) →
      restore_split_file
          ⟨"m/e.jar", "e.jar", 0, some (hashBytes []), true, some ⟨0, 0, 0, []⟩⟩
          "o" [] =
        (true, Disk.write [] (pathJoin "o" (basename "m/e.jar")) [])) :=
  c10_empty_chunkset
    ⟨"m/e.jar", "e.jar", 0, some (hashBytes []), true, some ⟨0, 0, 0, []⟩⟩
    ⟨0, 0, 0, []⟩ "o" [] rfl rfl (by decide)

/-! ### Claim C6 -/

/-- C6 counterexample: a walked `.jar` file whose hashing failed (hash
recorded as `None`) and one whose split failed (recorded as unsplit) both
still appear in the produced manifest, refuting the claimed exclusion of
files whose hash or split failed. -/
theorem c6_counterexample :
    buildManifest 2 2
        [⟨"a.jar", "d/a.jar", [1, 2], true, false⟩,
         ⟨"b.jar", "d/b.jar", [1, 2, 3], false, true⟩] =
      [⟨"d/a.jar", "a.jar", 2, none, false, none⟩,
       ⟨"d/b.jar", "b.jar", 3, some (hashBytes [1, 2, 3]), false, none⟩] := by
  decide

/-- C6 (amended): the walk is fault-isolated — every walked `.jar` file
contributes exactly one manifest record, including files whose hashing or
splitting failed; such files are not excluded but included with a null
`file_hash` (hash failure) or recorded as unsplit with no split details
(split failure). Non-`.jar` files are skipped. -/
theorem c6_manifest_inclusion_amended (threshold chunkSize : Nat)
    (files : List WalkedFile) :
    ((buildManifest threshold chunkSize files).length =
      (files.filter isJarFile).length) ∧
    (∀ w ∈ files, isJarFile w = true →
      buildRecord threshold chunkSize w ∈
        buildManifest threshold chunkSize files) ∧
    (∀ w : WalkedFile, w.hashFails = true →
      (buildRecord threshold chunkSize w).file_hash = none) ∧
    (∀ w : WalkedFile, w.splitFails = true →
      (buildRecord threshold chunkSize w).is_split = false ∧
      (buildRecord threshold chunkSize w).split_details = none) := by
  refine ⟨?_, ?_, ?_, ?_⟩
  · simp [buildManifest]
  · intro w hw hjar
    exact List.mem_map_of_mem _ (List.mem_filter.mpr ⟨hw, hjar⟩)
  · intro w hf
    simp only [buildRecord]
    by_cases hsz : w.content.length > threshold <;>
      by_cases hsp : w.splitFails <;>
        simp [hsz, hsp, hf]
  · intro w hsp
    simp only [buildRecord]
    by_cases hsz : w.content.length > threshold <;>
      simp [hsz, hsp]

theorem c6_manifest_inclusion_amended_witness :
    (buildRecord 2 2 ⟨"a.jar", "d/a.jar", [1, 2], true, false⟩ ∈
      buildManifest 2 2 [⟨"a.jar", "d/a.jar", [1, 2], true, false⟩]) ∧
    (buildRecord 2 2 ⟨"a.jar", "d/a.jar", [1, 2], true, false⟩).file_hash
      = none :=
  ⟨(c6_manifest_inclusion_amended 2 2
      [⟨"a.jar", "d/a.jar", [1, 2], true, false⟩]).2.1
      ⟨"a.jar", "d/a.jar", [1, 2], true, false⟩ (by decide) (by decide),
   (c6_manifest_inclusion_amended 2 2
      [⟨"a.jar", "d/a.jar", [1, 2], true, false⟩]).2.2.1
      ⟨"a.jar", "d/a.jar", [1, 2], true, false⟩ (by decide)⟩

/-! ### Claim C8 -/

/-- C8 counterexample: a manifest record with a name match but neither hash
match nor equal size is classified `SizeMismatch` AND, because the size
branch does not stop the iteration, also `HashMismatch` — the same record
lands in both buckets, refuting the claimed exclusivity. -/
theorem c8_counterexample :
    validate_mods_with_config
        [⟨"m/a.jar", "a.jar", 10, some 111, false, none⟩]
        [⟨"a.jar", "l/a.jar", some 222, some 5⟩] =
      some (⟨[], [⟨"m/a.jar", "a.jar", 10, some 111, false, none⟩],
        [⟨"m/a.jar", "a.jar", 10, some 111, false, none⟩], []⟩, []) := by
  decide

/-- C8 (amended): on the name-match path (no hash match), unequal sizes
classify the record `SizeMismatch`, and the hash is compared regardless:
when the hash is also unequal the very same record is additionally
classified `HashMismatch` (both buckets); when the hash is equal only
`SizeMismatch` is recorded. -/
theorem c8_name_match_amended (hm : List (Nat × List LocalFile))
    (nm : List (String × List LocalFile)) (acc : Inconsistencies)
    (mod : FileInfo) (h : Nat) (locs : List LocalFile) (lf : LocalFile)
    (ls lh : Nat)
    (hhash : mod.file_hash = some h)
    (hnomatch : lookupKey hm h = none)
    (hname : lookupKey nm mod.file_name = some locs)
    (hhead : locs.head? = some lf)
    (hsize : lf.size_bytes = some ls)
    (hne : ls ≠ mod.file_size_bytes)
    (hlh : lf.hash = some lh) :
    classifyStep hm nm acc mod =
      some { acc with
        size_mismatch := acc.size_mismatch ++ [mod]
        hash_mismatch :=
          if lh ≠ h then acc.hash_mismatch ++ [mod]
          else acc.hash_mismatch } := by
  by_cases hq : lh = h
  · subst hq
    simp [classifyStep, hhash, hnomatch, hname, hhead, hsize, hne, hlh]
  · simp [classifyStep, hhash, hnomatch, hname, hhead, hsize, hne, hlh, hq]

theorem c8_name_match_amended_witness :
    classifyStep [(222, [⟨"a.jar", "l/a.jar", some 222, some 5⟩])]
        [("a.jar", [⟨"a.jar", "l/a.jar", some 222, some 5⟩])]
        ⟨[], [], [], []⟩ ⟨"m/a.jar", "a.jar", 10, some 111, false, none⟩ =
      some ⟨[], [⟨"m/a.jar", "a.jar", 10, some 111, false, none⟩],
        [⟨"m/a.jar", "a.jar", 10, some 111, false, none⟩], []⟩ := by
  have hstep := c8_name_match_amended
    [(222, [⟨"a.jar", "l/a.jar", some 222, some 5⟩])]
    [("a.jar", [⟨"a.jar", "l/a.jar", some 222, some 5⟩])]
    ⟨[], [], [], []⟩ ⟨"m/a.jar", "a.jar", 10, some 111, false, none⟩
    111 [⟨"a.jar", "l/a.jar", some 222, some 5⟩]
    ⟨"a.jar", "l/a.jar", some 222, some 5⟩ 5 222
    rfl (by decide) (by decide) rfl rfl (by decide) rfl
  rw [hstep]
  decide

/-! ### Claim C9 -/

/-- C9 counterexample: the local file `readme.txt` has neither a hash match
nor a name match against the manifest, yet it is not classified `ExtraFile`,
because the source additionally requires the name to end in `.jar`. -/
theorem c9_counterexample :
    (hashMem (some 222)
        (([⟨"m/a.jar", "a.jar", 10, some 111, false, none⟩] :
          List FileInfo).filterMap (·.file_hash)) = false) ∧
    ((([⟨"m/a.jar", "a.jar", 10, some 111, false, none⟩] :
        List FileInfo).map (·.file_name)).contains "readme.txt" = false) ∧
    validate_mods_with_config
        [⟨"m/a.jar", "a.jar", 10, some 111, false, none⟩]
        [⟨"readme.txt", "l/readme.txt", some 222, some 4⟩] =
      some (⟨[⟨"m/a.jar", "a.jar", 10, some 111, false, none⟩], [], [], []⟩,
        []) := by
  refine ⟨by decide, by decide, by decide⟩

/-- C9 (amended): the extra files reported by a successful
`validate_mods_with_config` call are exactly the local files whose hash is
not in the manifest's hash set, whose name is not in the manifest's name
set, AND whose name ends in `.jar`; and a manifest record whose recorded
hash matches some local file is classified into no inconsistency bucket
(fully consistent regardless of the local file's name). -/
theorem c9_extra_files_amended (config : List FileInfo)
    (locals : List LocalFile) (inc : Inconsistencies) (ex : List LocalFile)
    (hres : validate_mods_with_config config locals = some (inc, ex)) :
    (∀ f ∈ locals, (f ∈ ex ↔
      (hashMem f.hash (config.filterMap (·.file_hash)) = false ∧
       (config.map (·.file_name)).contains f.file_name = false ∧
       strEndsWith f.file_name ".jar" = true))) ∧
    (∀ (acc : Inconsistencies) (r : FileInfo) (h : Nat),
      r.file_hash = some h →
      (lookupKey (buildLocalMaps locals).1 h).isSome = true →
      classifyStep (buildLocalMaps locals).1 (buildLocalMaps locals).2 acc r =
        some acc) := by
  constructor
  · intro f hf
    have hex : ex = extraLoop (config.filterMap (·.file_hash))
        (config.map (·.file_name)) locals := by
      simp only [validate_mods_with_config] at hres
      cases hall : classifyAll (buildLocalMaps locals).1
          (buildLocalMaps locals).2 ⟨[], [], [], []⟩ config with
      | none => rw [hall] at hres; simp at hres
      | some inc1 =>
        rw [hall] at hres
        simp only [Option.some.injEq, Prod.mk.injEq] at hres
        exact hres.2.symm
    rw [hex, extraLoop, List.mem_filter]
    simp [hf, Bool.and_eq_true, Bool.not_eq_true', Bool.or_eq_false_iff]
    tauto
  · intro acc r h hh hmatch
    simp [classifyStep, hh, hmatch]

theorem c9_extra_files_amended_witness :
    (⟨"x.jar", "l/x.jar", some 222, some 4⟩ : LocalFile) ∈
        ([⟨"x.jar", "l/x.jar", some 222, some 4⟩] : List LocalFile) ↔
      (hashMem (some 222)
        (([⟨"m/a.jar", "a.jar", 10, some 111, false, none⟩] :
          List FileInfo).filterMap (·.file_hash)) = false ∧
       (([⟨"m/a.jar", "a.jar", 10, some 111, false, none⟩] :
          List FileInfo).map (·.file_name)).contains "x.jar" = false ∧
       strEndsWith "x.jar" ".jar" = true) :=
  (c9_extra_files_amended
    [⟨"m/a.jar", "a.jar", 10, some 111, false, none⟩]
    [⟨"x.jar", "l/x.jar", some 222, some 4⟩]
    ⟨[⟨"m/a.jar", "a.jar", 10, some 111, false, none⟩], [], [], []⟩
    [⟨"x.jar", "l/x.jar", some 222, some 4⟩]
    (by decide)).1
    ⟨"x.jar", "l/x.jar", some 222, some 4⟩ (by decide)

end TestClient
